import Mathlib

/-!
Verification of the `nommidi` MIDI parser (src/lib.rs) against its
specification.  The parser is written with the nom 2.x combinator
library; the embedding below models the nom combinator semantics used by
the source: byte-slice input becomes `List Nat` (entries are bytes,
`0 ≤ b < 256`), nom's `IResult` becomes the inductive `IResult` below,
and a Rust panic (index out of bounds, or `unreachable!()`) is the extra
outcome `panicked`.
-/

/-- Error kinds produced by the parsers.  nom's `ErrorKind` is collapsed
to the constructors actually reachable in this source: `tag!` mismatch,
`switch!` fall-through, `alt!` exhaustion, `many0!` non-progress,
`eof!` failure, and `ErrorKind::Custom n` (the source uses `Custom(0)`
for an overlong var-length quantity). -/
inductive ErrKind where
  | tag : ErrKind
  | switch : ErrKind
  | alt : ErrKind
  | many0 : ErrKind
  | eofErr : ErrKind
  | custom : Nat → ErrKind
deriving DecidableEq, Repr

/-- nom's `IResult<&[u8], T>`: `done rest value`, `error e`
(`IResult::Error`), `incomplete` (`IResult::Incomplete`, any `Needed`),
plus `panicked`, which models a Rust panic escaping the parser
(`sysex_event` indexes `data[data.len()-1]` on an empty slice). -/
inductive IResult (α : Type) where
  | done : List Nat → α → IResult α
  | error : ErrKind → IResult α
  | incomplete : IResult α
  | panicked : IResult α
deriving DecidableEq, Repr

/-- Sequencing of parsers, as nom's `do_parse!` chains it: errors,
incompleteness and panics all propagate. -/
def pbind {α β : Type} (r : IResult α) (f : List Nat → α → IResult β) : IResult β :=
  match r with
  | .done i a => f i a
  | .error e => .error e
  | .incomplete => .incomplete
  | .panicked => .panicked

/-- nom's `map!`. -/
def mapR {α β : Type} (f : α → β) : IResult α → IResult β
  | .done i a => .done i (f a)
  | .error e => .error e
  | .incomplete => .incomplete
  | .panicked => .panicked

/-- nom's `be_u8`. -/
def be_u8 : List Nat → IResult Nat
  | [] => .incomplete
  | b :: rest => .done rest b

/-- nom's `be_u16` (big-endian). -/
def be_u16 : List Nat → IResult Nat
  | b0 :: b1 :: rest => .done rest (b0 * 256 + b1)
  | _ => .incomplete

/-- nom's `be_u32` (big-endian). -/
def be_u32 : List Nat → IResult Nat
  | b0 :: b1 :: b2 :: b3 :: rest =>
      .done rest (((b0 * 256 + b1) * 256 + b2) * 256 + b3)
  | _ => .incomplete

/-- nom's `take!(n)`: `Incomplete` when fewer than `n` bytes remain. -/
def takeP (n : Nat) (input : List Nat) : IResult (List Nat) :=
  if input.length < n then .incomplete else .done (input.drop n) (input.take n)

/-- nom's `tag!(t)`: length is checked first (short input is
`Incomplete` even if the available prefix already mismatches), then the
prefix is compared. -/
def tagP (t : List Nat) (input : List Nat) : IResult (List Nat) :=
  if input.length < t.length then .incomplete
  else if input.take t.length = t then .done (input.drop t.length) t
  else .error .tag

/-- nom's `eof!()`: succeeds without consuming iff the input is empty. -/
def eofP (input : List Nat) : IResult Unit :=
  if input = [] then .done input () else .error .eofErr


-- Midi data structures (src/lib.rs lines 20-49, 128-169) ---------------------

/-- `struct Header` (lib.rs line 27). -/
structure Header where
  len : Nat
  format : Nat
  tracks : Nat
  division : Nat
deriving DecidableEq, Repr

/-- `struct MidiEvent` (lib.rs line 129): the source records nothing. -/
structure MidiEvent where
deriving DecidableEq, Repr

/-- `struct MetaEvent` (lib.rs line 141). -/
structure MetaEvent where
  kind : Nat
  data : List Nat
deriving DecidableEq, Repr

/-- `struct SysexEvent` (lib.rs line 163); the Rust field `end` is a
Lean keyword and is called `endFlag` here. -/
structure SysexEvent where
  start : Bool
  endFlag : Bool
  data : List Nat
deriving DecidableEq, Repr

/-- `enum Event` (lib.rs line 35). -/
inductive Event where
  | midi : Nat → MidiEvent → Event
  | meta : Nat → MetaEvent → Event
  | sysex : Nat → SysexEvent → Event
deriving DecidableEq, Repr

/-- `struct TrackChunk` (lib.rs line 42). -/
structure TrackChunk where
  events : List Event
deriving DecidableEq, Repr

/-- `enum Chunk` (lib.rs line 47). -/
inductive Chunk where
  | track : TrackChunk → Chunk
deriving DecidableEq, Repr

/-- `struct Midi` (lib.rs line 21). -/
structure Midi where
  header : Header
  chunks : List Chunk
deriving DecidableEq, Repr


-- var_length (lib.rs lines 187-200) ------------------------------------------

/-- Loop body of `var_length`: the first argument counts the iterations
that remain of `for i in 0..4`; `r` is the accumulator `result : u32`
(the source shifts a `u32`, hence the `% 2^32`, though the value never
exceeds 28 bits). -/
def var_length_go : Nat → Nat → List Nat → IResult Nat
  | 0, _, _ => .error (.custom 0)
  | _ + 1, _, [] => .incomplete
  | n + 1, r, b :: rest =>
    if b &&& 0x80 = 0 then
      .done rest (((r <<< 7) % 4294967296) ||| (b &&& 0x7F))
    else
      var_length_go n (((r <<< 7) % 4294967296) ||| (b &&& 0x7F)) rest

/-- `fn var_length` (lib.rs line 187): MIDI variable-length quantity,
at most 4 bytes, `Incomplete` on exhaustion, `Error(Custom(0))` when a
fifth byte would be required. -/
def var_length (input : List Nat) : IResult Nat :=
  var_length_go 4 0 input


-- Event parsers (lib.rs lines 113-182) ----------------------------------------

/-- `midi_event` (lib.rs line 133): `preceded!(take!(2), value!(MidiEvent {}))`.
It consumes a fixed two bytes and records nothing. -/
def midi_event (input : List Nat) : IResult MidiEvent :=
  pbind (takeP 2 input) fun i _ => .done i ⟨⟩

/-- `meta_event` (lib.rs line 146): `tag!([0xFF])`, a kind byte, a VLQ
length, then that many payload bytes. -/
def meta_event (input : List Nat) : IResult MetaEvent :=
  pbind (tagP [0xFF] input) fun i _ =>
  pbind (be_u8 i) fun i kind =>
  pbind (var_length i) fun i len =>
  pbind (takeP len i) fun i data =>
  .done i { kind := kind, data := data }

/-- The `alt!(tag!([0xF0]) | tag!([0xF7]))` at the head of
`sysex_event`; nom's `alt!` tries the next branch only on `Error` and
reports `ErrorKind::Alt` when every branch fails. -/
def sysexTag (input : List Nat) : IResult (List Nat) :=
  match tagP [0xF0] input with
  | .error _ =>
    match tagP [0xF7] input with
    | .error _ => .error .alt
    | r => r
  | r => r

/-- `sysex_event` (lib.rs line 171).  The source computes
`data[data.len()-1] == 0xF7` for the `end` field; on an empty payload
that index panics, modelled by `panicked`. -/
def sysex_event (input : List Nat) : IResult SysexEvent :=
  pbind (sysexTag input) fun i kind =>
  pbind (var_length i) fun i len =>
  pbind (takeP len i) fun i data =>
  match data.getLast? with
  | none => .panicked
  | some b => .done i { start := kind = [0xF0], endFlag := b = 0xF7, data := data }

/-- Body dispatch of `event` (lib.rs line 116):
`alt!(switch!(be_u8, FF | F0 | F7 => ...) | map!(midi_event, ...))`.
`switch!` consumes the byte it scrutinizes; when the selected arm (or
the switch itself) fails with `Error`, `alt!` retries `midi_event` on
the original input; `Incomplete` is propagated without retrying. -/
def eventBody (dt : Nat) (input : List Nat) : IResult Event :=
  match input with
  | [] => .incomplete
  | b :: i2 =>
    let sw : IResult Event :=
      if b = 0xFF then mapR (Event.meta dt) (meta_event i2)
      else if b = 0xF0 ∨ b = 0xF7 then mapR (Event.sysex dt) (sysex_event i2)
      else .error .switch
    match sw with
    | .error _ => mapR (Event.midi dt) (midi_event input)
    | r => r

/-- `event` (lib.rs line 113): a VLQ delta-time, then the dispatched body. -/
def event (input : List Nat) : IResult Event :=
  pbind (var_length input) fun i dt => eventBody dt i


-- many0 (nom's many0! combinator) ---------------------------------------------

/-- nom's `many0!`: repeat `p`, stopping with the accumulated results
when `p` fails with `Error`; `Incomplete` is propagated; a step that
consumes nothing stops with `ErrorKind::Many0`.  Fuel makes the
recursion structural; since every continuing step consumes at least one
byte, fuel `input.length + 1` never runs out (`many0F_fuel` below). -/
def many0F {α : Type} (p : List Nat → IResult α) : Nat → List Nat → IResult (List α)
  | 0, _ => .incomplete
  | fuel + 1, input =>
    if input = [] then .done input []
    else
      match p input with
      | .error _ => .done input []
      | .incomplete => .incomplete
      | .panicked => .panicked
      | .done i o =>
        if i.length < input.length then
          match many0F p fuel i with
          | .done rest os => .done rest (o :: os)
          | r => r
        else .error .many0

/-- nom's `many0!(p)` with always-sufficient fuel. -/
def many0 {α : Type} (p : List Nat → IResult α) (input : List Nat) : IResult (List α) :=
  many0F p (input.length + 1) input


-- Container parsers (lib.rs lines 54-111) --------------------------------------

/-- The inner `terminated!(many0!(event), eof!())` applied by `track`
(lib.rs line 98) to the length-delimited track body. -/
def track_events (data : List Nat) : IResult (List Event) :=
  pbind (many0 event data) fun i evs =>
  pbind (eofP i) fun j _ => .done j evs

/-- `track` (lib.rs line 91): `MTrk` tag, `be_u32` length, that many
body bytes, then the events parsed out of the body (the body must be
fully consumed); the outer rest is what follows the body. -/
def track (input : List Nat) : IResult TrackChunk :=
  pbind (tagP [0x4D, 0x54, 0x72, 0x6B] input) fun i _ =>
  pbind (be_u32 i) fun i len =>
  pbind (takeP len i) fun rest data =>
  match track_events data with
  | .done _ evs => .done rest { events := evs }
  | .error e => .error e
  | .incomplete => .incomplete
  | .panicked => .panicked

/-- `ignore` (lib.rs line 104): skip a 4-byte tag, a `be_u32` length and
that many bytes, producing no chunk. -/
def ignore (input : List Nat) : IResult (Option Chunk) :=
  pbind (takeP 4 input) fun i _ =>
  pbind (be_u32 i) fun i len =>
  pbind (takeP len i) fun i _ => .done i none

/-- `chunk` (lib.rs line 82): peek with `opt!(tag!(b"MTrk"))` (which is
`Incomplete` on fewer than 4 bytes), then parse a track or skip. -/
def chunk (input : List Nat) : IResult (Option Chunk) :=
  if input.length < 4 then .incomplete
  else if input.take 4 = [0x4D, 0x54, 0x72, 0x6B] then
    mapR (fun t => some (Chunk.track t)) (track input)
  else ignore input

/-- `header` (lib.rs line 66): `MThd` tag, `be_u32` declared length
(recorded, not used to delimit), then three `be_u16` fields. -/
def header (input : List Nat) : IResult Header :=
  pbind (tagP [0x4D, 0x54, 0x68, 0x64] input) fun i _ =>
  pbind (be_u32 i) fun i len =>
  pbind (be_u16 i) fun i format =>
  pbind (be_u16 i) fun i tracks =>
  pbind (be_u16 i) fun i division =>
  .done i { len := len, format := format, tracks := tracks, division := division }

/-- `parse_file` (lib.rs line 54): header, `many0!(chunk)`, `eof!()`;
skipped chunks are filtered out of the chunk list. -/
def parse_file (input : List Nat) : IResult Midi :=
  pbind (header input) fun i h =>
  pbind (many0 chunk i) fun i chunks =>
  pbind (eofP i) fun i _ =>
  .done i { header := h, chunks := chunks.filterMap id }

/-- Outcome of the public entry point `parse_midi`. -/
inductive MidiResult where
  | ok : Midi → MidiResult
  | err : ErrKind → MidiResult
  | panicked : MidiResult
deriving DecidableEq, Repr

/-- `parse_midi` (lib.rs line 9).  The source matches `Incomplete` to
`unreachable!()`, which panics when nom does report `Incomplete`. -/
def parse_midi (input : List Nat) : MidiResult :=
  match parse_file input with
  | .done _ m => .ok m
  | .error e => .err e
  | .incomplete => .panicked
  | .panicked => .panicked


-- Spec-modelled auxiliary definitions ------------------------------------------

/-- Modelled from the spec: the repository contains no VLQ encoder, but
the round-trip property of §8 needs one.  This is the big-endian
base-128 encoding described by the spec's VLQ grammar: one byte per
7-bit group, most significant group first, continuation bit (0x80) set
on every byte but the last. -/
def vlq_encode (v : Nat) : List Nat :=
  if v < 128 then [v]
  else if v < 16384 then [128 + v / 128, v % 128]
  else if v < 2097152 then [128 + v / 16384, 128 + v / 128 % 128, v % 128]
  else [128 + v / 2097152, 128 + v / 16384 % 128, 128 + v / 128 % 128, v % 128]

/-- Big-endian 4-byte rendering of a `u32` chunk length, used to state
claims about whole buffers. -/
def u32Bytes (n : Nat) : List Nat :=
  [n / 16777216 % 256, n / 65536 % 256, n / 256 % 256, n % 256]


-- Arithmetic lemmas about the var_length loop ----------------------------------

lemma and_low7 (b : Nat) : b &&& 0x7F = b % 128 := by
  have h := Nat.and_pow_two_sub_one_eq_mod b 7
  norm_num at h
  exact h

lemma and_high (b : Nat) : b &&& 0x80 = b / 128 % 2 * 128 := by
  have h := Nat.and_two_pow b 7
  rw [Nat.testBit_to_div_mod] at h
  by_cases hb : b / 128 % 2 = 1
  · norm_num [hb] at h
    norm_num [hb, h]
  · norm_num [hb] at h
    norm_num [hb, h]
    omega

lemma and_high_of_lt {b : Nat} (h : b < 128) : b &&& 0x80 = 0 := by
  rw [and_high]
  omega

lemma and_high_of_cont {x : Nat} (h : x < 128) : (128 + x) &&& 0x80 ≠ 0 := by
  rw [and_high]
  omega

/-- One iteration of the `var_length` loop, rephrased arithmetically:
while the accumulator stays below `2^25` the `u32` shift cannot wrap. -/
lemma vlq_step (r b : Nat) (hr : r < 33554432) :
    ((r <<< 7) % 4294967296) ||| (b &&& 0x7F) = 128 * r + b % 128 := by
  have e1 : r <<< 7 = 2 ^ 7 * r := by rw [Nat.shiftLeft_eq]; ring
  have e2 : (2 ^ 7 * r) % 4294967296 = 2 ^ 7 * r := Nat.mod_eq_of_lt (by norm_num; omega)
  have h2 : b % 128 < 2 ^ 7 := by
    norm_num
    omega
  have h3 := Nat.mul_add_lt_is_or h2 r
  rw [and_low7, e1, e2, ← h3]

lemma go_stop (n : Nat) (hn : n ≠ 0) (r b : Nat) (rest : List Nat)
    (hr : r < 33554432) (hb : b < 128) :
    var_length_go n r (b :: rest) = .done rest (128 * r + b) := by
  cases n with
  | zero => exact absurd rfl hn
  | succ m =>
    simp only [var_length_go]
    rw [if_pos (and_high_of_lt hb), vlq_step r b hr, Nat.mod_eq_of_lt hb]

lemma go_cont (n : Nat) (hn : n ≠ 0) (r x : Nat) (rest : List Nat)
    (hr : r < 33554432) (hx : x < 128) :
    var_length_go n r ((128 + x) :: rest) = var_length_go (n - 1) (128 * r + x) rest := by
  cases n with
  | zero => exact absurd rfl hn
  | succ m =>
    simp only [var_length_go]
    rw [if_neg (and_high_of_cont hx), vlq_step r (128 + x) hr,
      show (128 + x) % 128 = x from by omega]
    rfl

lemma go_cont_any (n : Nat) (hn : n ≠ 0) (r b : Nat) (rest : List Nat)
    (hb : b &&& 0x80 ≠ 0) :
    var_length_go n r (b :: rest) =
      var_length_go (n - 1) (((r <<< 7) % 4294967296) ||| (b &&& 0x7F)) rest := by
  cases n with
  | zero => exact absurd rfl hn
  | succ m =>
    simp only [var_length_go]
    rw [if_neg hb]
    rfl


-- Claims about var_length ------------------------------------------------------

/-- Claim C6: for every `v` in `0 ..= 0x0FFFFFFF`, decoding the VLQ
encoding of `v` (followed by any tail) succeeds with value `v` and
consumes exactly the encoded bytes (the returned rest is the tail); in
particular the three literal fixtures hold. -/
theorem claim_c6 (v : Nat) (rest : List Nat) (hv : v ≤ 0x0FFFFFFF) :
    var_length (vlq_encode v ++ rest) = .done rest v
    ∧ var_length [0x00] = .done [] 0
    ∧ var_length [0x81, 0x00] = .done [] 0x80
    ∧ var_length [0xFF, 0xFF, 0xFF, 0x7F] = .done [] 0x0FFFFFFF := by
  refine ⟨?_, rfl, rfl, rfl⟩
  by_cases h1 : v < 128
  · simp only [vlq_encode, if_pos h1, List.cons_append, List.nil_append]
    unfold var_length
    rw [go_stop 4 (by omega) 0 v rest (by omega) h1]
    norm_num
  · by_cases h2 : v < 16384
    · simp only [vlq_encode, if_neg h1, if_pos h2, List.cons_append, List.nil_append]
      unfold var_length
      rw [go_cont 4 (by omega) 0 (v / 128) _ (by omega) (by omega)]
      rw [go_stop 3 (by omega) (128 * 0 + v / 128) (v % 128) rest (by omega) (by omega)]
      congr 1
      omega
    · by_cases h3 : v < 2097152
      · simp only [vlq_encode, if_neg h1, if_neg h2, if_pos h3, List.cons_append,
          List.nil_append]
        unfold var_length
        rw [go_cont 4 (by omega) 0 (v / 16384) _ (by omega) (by omega)]
        rw [go_cont 3 (by omega) (128 * 0 + v / 16384) (v / 128 % 128) _ (by omega) (by omega)]
        rw [go_stop 2 (by omega) (128 * (128 * 0 + v / 16384) + v / 128 % 128) (v % 128) rest
          (by omega) (by omega)]
        congr 1
        omega
      · simp only [vlq_encode, if_neg h1, if_neg h2, if_neg h3, List.cons_append,
          List.nil_append]
        unfold var_length
        rw [go_cont 4 (by omega) 0 (v / 2097152) _ (by omega) (by omega)]
        rw [go_cont 3 (by omega) (128 * 0 + v / 2097152) (v / 16384 % 128) _
          (by omega) (by omega)]
        rw [go_cont 2 (by omega) (128 * (128 * 0 + v / 2097152) + v / 16384 % 128)
          (v / 128 % 128) _ (by omega) (by omega)]
        rw [go_stop 1 (by omega)
          (128 * (128 * (128 * 0 + v / 2097152) + v / 16384 % 128) + v / 128 % 128)
          (v % 128) rest (by omega) (by omega)]
        congr 1
        omega

/-- Witness for C6 at the largest representable value. -/
theorem claim_c6_witness :
    (0x0FFFFFFF : Nat) ≤ 0x0FFFFFFF
    ∧ var_length (vlq_encode 0x0FFFFFFF ++ []) = .done [] 0x0FFFFFFF :=
  ⟨le_refl _, (claim_c6 0x0FFFFFFF [] (le_refl _)).1⟩

/-- Claim C7: when the first four bytes all have the continuation bit
set, `var_length` fails with `ErrorKind::Custom(0)` (the code's
rendering of `MalformedVarLength`): a fifth byte is never consumed. -/
theorem claim_c7 (b0 b1 b2 b3 : Nat) (rest : List Nat)
    (h0 : b0 &&& 0x80 ≠ 0) (h1 : b1 &&& 0x80 ≠ 0)
    (h2 : b2 &&& 0x80 ≠ 0) (h3 : b3 &&& 0x80 ≠ 0) :
    var_length (b0 :: b1 :: b2 :: b3 :: rest) = .error (.custom 0) := by
  unfold var_length
  rw [go_cont_any 4 (by omega) _ _ _ h0, go_cont_any 3 (by omega) _ _ _ h1,
    go_cont_any 2 (by omega) _ _ _ h2, go_cont_any 1 (by omega) _ _ _ h3]
  rfl

/-- Witness for C7 on four continuation bytes. -/
theorem claim_c7_witness :
    ((0x80 : Nat) &&& 0x80 ≠ 0) ∧ ((0xFF : Nat) &&& 0x80 ≠ 0)
    ∧ var_length [0x80, 0xFF, 0x80, 0xFF, 0x00] = .error (.custom 0) :=
  ⟨by decide, by decide,
    claim_c7 0x80 0xFF 0x80 0xFF [0x00] (by decide) (by decide) (by decide) (by decide)⟩

/-- Success postcondition of the `var_length` loop, by induction on the
remaining iteration budget: a successful decode consumed between 1 and
`n` bytes of the input, the returned rest is exactly the input with that
prefix removed, and the value stays below `128 ^ n * B` for any bound
`B` dominating the accumulator. -/
lemma go_done_spec (n : Nat) :
    ∀ (B r : Nat) (input rest : List Nat) (v : Nat),
      128 ^ n * B ≤ 268435456 → r < B → var_length_go n r input = .done rest v →
      ∃ k, 1 ≤ k ∧ k ≤ n ∧ k ≤ input.length ∧ rest = input.drop k ∧ v < 268435456 := by
  induction n with
  | zero =>
    intro B r input rest v _ _ h
    simp [var_length_go] at h
  | succ m ih =>
    intro B r input rest v hB hr h
    have h128 : 128 * B ≤ 268435456 := by
      calc 128 * B ≤ 128 ^ (m + 1) * B :=
            Nat.mul_le_mul_right B (Nat.le_self_pow (by omega) 128)
        _ ≤ 268435456 := hB
    cases input with
    | nil => simp [var_length_go] at h
    | cons b tl =>
      simp only [var_length_go] at h
      have hstep : ((r <<< 7) % 4294967296) ||| (b &&& 0x7F) = 128 * r + b % 128 :=
        vlq_step r b (by omega)
      by_cases hb : b &&& 0x80 = 0
      · rw [if_pos hb] at h
        obtain ⟨hrest, hval⟩ : tl = rest ∧ ((r <<< 7) % 4294967296) ||| (b &&& 0x7F) = v := by
          simpa using h
        refine ⟨1, le_refl 1, by omega, by simp, by rw [← hrest]; rfl, ?_⟩
        rw [← hval, hstep]
        omega
      · rw [if_neg hb] at h
        rw [hstep] at h
        obtain ⟨k, hk1, hkm, hklen, hkrest, hv⟩ :=
          ih (128 * B) (128 * r + b % 128) tl rest v
            (by rw [show 128 ^ m * (128 * B) = 128 ^ (m + 1) * B from by ring]; exact hB)
            (by omega) h
        exact ⟨k + 1, by omega, by omega, by simp; omega, by rw [hkrest]; rfl, hv⟩

/-- Claim C10: whenever `var_length` succeeds it consumed between 1 and
4 bytes of the input, the returned rest is exactly the input with that
prefix removed, and the value is at most `0x0FFFFFFF`; the loop is total
and accesses the slice only behind its bounds check (the embedding is a
total function over `List Nat`). -/
theorem claim_c10 (input rest : List Nat) (v : Nat)
    (h : var_length input = .done rest v) :
    ∃ k, 1 ≤ k ∧ k ≤ 4 ∧ k ≤ input.length ∧ rest = input.drop k ∧ v ≤ 0x0FFFFFFF := by
  obtain ⟨k, hk1, hk4, hklen, hkrest, hv⟩ :=
    go_done_spec 4 1 0 input rest v (by norm_num) (by omega) h
  exact ⟨k, hk1, hk4, hklen, hkrest, by omega⟩

/-- Witness for C10 on the two-byte fixture `[0x81, 0x00]`. -/
theorem claim_c10_witness :
    var_length [0x81, 0x00] = .done [] 0x80
    ∧ ∃ k, 1 ≤ k ∧ k ≤ 4 ∧ k ≤ ([0x81, 0x00] : List Nat).length
        ∧ ([] : List Nat) = ([0x81, 0x00] : List Nat).drop k ∧ (0x80 : Nat) ≤ 0x0FFFFFFF :=
  ⟨rfl, claim_c10 [0x81, 0x00] [] 0x80 rfl⟩


-- Unfolding lemmas for many0 ---------------------------------------------------

/-- The fuel argument of `many0F` is irrelevant once it exceeds the
input length, since every continuing step consumes at least one byte. -/
lemma many0F_fuel {α : Type} (p : List Nat → IResult α) :
    ∀ (fuel : Nat) (input : List Nat), input.length < fuel →
      many0F p fuel input = many0 p input := by
  intro fuel
  induction fuel using Nat.strong_induction_on with
  | _ fuel ih =>
    intro input hlen
    cases fuel with
    | zero => omega
    | succ f =>
      rw [many0]
      by_cases hemp : input = []
      · subst hemp
        simp [many0F]
      · simp only [many0F, if_neg hemp]
        cases hp : p input with
        | done i o =>
          dsimp only
          by_cases hprog : i.length < input.length
          · rw [if_pos hprog]
            rw [ih f (by omega) i (by omega), ih input.length (by omega) i (by omega)]
            rw [if_pos hprog]
          · rw [if_neg hprog, if_neg hprog]
        | error e => rfl
        | incomplete => rfl
        | panicked => rfl

lemma many0_nil {α : Type} (p : List Nat → IResult α) : many0 p [] = .done [] [] := rfl

/-- One successful, progressing step of nom's `many0!`. -/
lemma many0_cons {α : Type} (p : List Nat → IResult α) (input i : List Nat) (o : α)
    (r : List Nat) (os : List α)
    (h0 : input ≠ []) (h1 : p input = .done i o) (h2 : i.length < input.length)
    (h3 : many0 p i = .done r os) :
    many0 p input = .done r (o :: os) := by
  rw [many0]
  simp only [many0F, if_neg h0, h1]
  rw [if_pos h2, many0F_fuel p input.length i h2, h3]


-- Framing lemmas for whole-buffer claims ---------------------------------------

lemma tagP_exact (t rest : List Nat) : tagP t (t ++ rest) = .done rest t := by
  unfold tagP
  rw [if_neg (by simp), if_pos (List.take_left t rest), List.drop_left]

lemma takeP_exact (xs rest : List Nat) : takeP xs.length (xs ++ rest) = .done rest xs := by
  unfold takeP
  rw [if_neg (by simp), List.drop_left, List.take_left]

lemma u32Bytes_length (n : Nat) : (u32Bytes n).length = 4 := rfl

lemma be_u32_u32Bytes (n : Nat) (rest : List Nat) (h : n < 4294967296) :
    be_u32 (u32Bytes n ++ rest) = .done rest n := by
  simp only [u32Bytes, List.cons_append, List.nil_append, be_u32]
  congr 1
  omega

/-- `header` on a well-formed `MThd` chunk followed by anything. -/
lemma header_spec (n f1 f2 t1 t2 d1 d2 : Nat) (x : List Nat) (hn : n < 4294967296) :
    header ([0x4D, 0x54, 0x68, 0x64] ++ (u32Bytes n ++ (f1 :: f2 :: t1 :: t2 :: d1 :: d2 :: x)))
      = .done x { len := n, format := f1 * 256 + f2, tracks := t1 * 256 + t2,
                  division := d1 * 256 + d2 } := by
  unfold header
  rw [tagP_exact]
  simp only [pbind]
  rw [be_u32_u32Bytes n _ hn]
  simp only [pbind, be_u16]

/-- `track` on a well-formed `MTrk` chunk whose body decodes fully. -/
lemma track_spec (tb rest : List Nat) (evs : List Event)
    (hlen : tb.length < 4294967296)
    (he : track_events tb = .done [] evs) :
    track ([0x4D, 0x54, 0x72, 0x6B] ++ (u32Bytes tb.length ++ (tb ++ rest)))
      = .done rest { events := evs } := by
  unfold track
  rw [tagP_exact]
  simp only [pbind]
  rw [be_u32_u32Bytes tb.length _ hlen]
  simp only [pbind]
  rw [takeP_exact tb rest]
  simp only [pbind, he]

/-- `chunk` recognizes a well-formed `MTrk` chunk. -/
lemma chunk_mtrk (tb rest : List Nat) (evs : List Event)
    (hlen : tb.length < 4294967296) (he : track_events tb = .done [] evs) :
    chunk ([0x4D, 0x54, 0x72, 0x6B] ++ (u32Bytes tb.length ++ (tb ++ rest)))
      = .done rest (some (Chunk.track { events := evs })) := by
  unfold chunk
  rw [if_neg (by simp), if_pos (by rfl), track_spec tb rest evs hlen he]
  rfl

/-- `chunk` skips a chunk with any non-`MTrk` 4-byte tag, producing no
chunk value. -/
lemma chunk_skip (tag4 xb rest : List Nat)
    (hlen4 : tag4.length = 4) (hne : tag4 ≠ [0x4D, 0x54, 0x72, 0x6B])
    (hxlen : xb.length < 4294967296) :
    chunk (tag4 ++ (u32Bytes xb.length ++ (xb ++ rest))) = .done rest none := by
  unfold chunk
  rw [if_neg (by simp [hlen4]), if_neg (by rw [List.take_left' hlen4]; exact hne)]
  unfold ignore
  rw [show (4 : Nat) = tag4.length from hlen4.symm, takeP_exact]
  simp only [pbind]
  rw [be_u32_u32Bytes xb.length _ hxlen]
  simp only [pbind]
  rw [takeP_exact xb rest]


/-- Claim C8: a valid header, then an unknown top-level chunk (tag
`XTRA`, any body), then a valid `MTrk` chunk parse successfully; the
unknown chunk contributes no `Chunk` value and the `MTrk` chunk is still
parsed into a `Track` chunk. -/
theorem claim_c8 (xb tb : List Nat) (evs : List Event)
    (hx : xb.length < 4294967296) (ht : tb.length < 4294967296)
    (he : track_events tb = .done [] evs) :
    parse_midi ([0x4D, 0x54, 0x68, 0x64] ++ (u32Bytes 6 ++ (0 :: 1 :: 0 :: 2 :: 0 :: 0x60 ::
        ([0x58, 0x54, 0x52, 0x41] ++ (u32Bytes xb.length ++ (xb ++
          ([0x4D, 0x54, 0x72, 0x6B] ++ (u32Bytes tb.length ++ tb))))))))
      = .ok { header := { len := 6, format := 1, tracks := 2, division := 0x60 },
              chunks := [Chunk.track { events := evs }] } := by
  have hc1 : chunk ([0x58, 0x54, 0x52, 0x41] ++ (u32Bytes xb.length ++ (xb ++
        ([0x4D, 0x54, 0x72, 0x6B] ++ (u32Bytes tb.length ++ tb)))))
      = .done ([0x4D, 0x54, 0x72, 0x6B] ++ (u32Bytes tb.length ++ tb)) none :=
    chunk_skip [0x58, 0x54, 0x52, 0x41] xb _ rfl (by decide) hx
  have hc2 : chunk ([0x4D, 0x54, 0x72, 0x6B] ++ (u32Bytes tb.length ++ tb))
      = .done [] (some (Chunk.track { events := evs })) := by
    have e : u32Bytes tb.length ++ tb = u32Bytes tb.length ++ (tb ++ []) := by
      rw [List.append_nil]
    rw [e]
    exact chunk_mtrk tb [] evs ht he
  have hm2 : many0 chunk ([0x4D, 0x54, 0x72, 0x6B] ++ (u32Bytes tb.length ++ tb))
      = .done [] [some (Chunk.track { events := evs })] :=
    many0_cons chunk _ [] _ [] [] (List.cons_ne_nil _ _) hc2
      (by simp only [List.length_nil, List.length_append, List.length_cons,
            u32Bytes_length]; omega)
      (many0_nil chunk)
  have hm1 : many0 chunk ([0x58, 0x54, 0x52, 0x41] ++ (u32Bytes xb.length ++ (xb ++
        ([0x4D, 0x54, 0x72, 0x6B] ++ (u32Bytes tb.length ++ tb)))))
      = .done [] (none :: [some (Chunk.track { events := evs })]) :=
    many0_cons chunk _ _ none [] _ (List.cons_ne_nil _ _) hc1
      (by simp only [List.length_append, List.length_cons, u32Bytes_length]; omega)
      hm2
  unfold parse_midi parse_file
  rw [header_spec 6 0 1 0 2 0 0x60 _ (by norm_num)]
  simp only [pbind]
  rw [hm1]
  simp only [pbind, eofP, if_pos rfl, List.filterMap]
  rfl

/-- Witness for C8 at a concrete buffer: `XTRA` body `AB CD` and an
empty `MTrk` body. -/
theorem claim_c8_witness :
    track_events [] = .done [] []
    ∧ parse_midi ([0x4D, 0x54, 0x68, 0x64] ++ (u32Bytes 6 ++ (0 :: 1 :: 0 :: 2 :: 0 :: 0x60 ::
        ([0x58, 0x54, 0x52, 0x41] ++ (u32Bytes ([0xAB, 0xCD] : List Nat).length ++ ([0xAB, 0xCD] ++
          ([0x4D, 0x54, 0x72, 0x6B] ++ (u32Bytes ([] : List Nat).length ++ ([] : List Nat)))))))))
      = .ok { header := { len := 6, format := 1, tracks := 2, division := 0x60 },
              chunks := [Chunk.track { events := [] }] } :=
  ⟨rfl, claim_c8 [0xAB, 0xCD] [] [] (by decide) (by decide) rfl⟩


-- Claims settled by evaluating the code on the failing inputs -------------------

/-- Claim C1 (running status): on the track body
`00 90 40 7F 00 40 00` the spec requires the second event to reuse the
stored status `0x90` with data bytes `(0x40, 0x00)`.  The code instead
has no running-status state: the first event consumes only `90 40`, the
second event takes `7F` as its delta and consumes `00 40`, and the
left-over byte makes the body decode `Incomplete` (a panic at the top
level). -/
theorem claim_c1 :
    event [0x00, 0x90, 0x40, 0x7F, 0x00, 0x40, 0x00]
        = .done [0x7F, 0x00, 0x40, 0x00] (.midi 0 ⟨⟩)
    ∧ event [0x7F, 0x00, 0x40, 0x00] = .done [0x00] (.midi 0x7F ⟨⟩)
    ∧ track_events [0x00, 0x90, 0x40, 0x7F, 0x00, 0x40, 0x00] = .incomplete :=
  ⟨rfl, rfl, rfl⟩

/-- Claim C2 (channel-event data length): the spec requires status
`0x90` to be followed by 2 consumed data bytes and the decoded event to
record status and data.  The code's `midi_event` consumes a fixed two
bytes — the status byte plus a single data byte — for every status, and
`MidiEvent` has no fields, so nothing is recorded. -/
theorem claim_c2 :
    midi_event [0x90, 0x40, 0x7F] = .done [0x7F] ⟨⟩
    ∧ midi_event [0xC0, 0x40, 0x7F] = .done [0x7F] ⟨⟩
    ∧ ∀ a b : MidiEvent, a = b :=
  ⟨rfl, rfl, fun _ _ => rfl⟩

/-- Claim C3 (meta event): the body `00 FF 01 03 41 42 43` should yield
one `Meta` event with kind 1 and data `41 42 43`, and `meta_event` alone
does decode `FF 01 03 41 42 43` that way; but `event` dispatches via
`switch!(be_u8, ...)`, which consumes the `0xFF`, after which
`meta_event`'s own `tag!([0xFF])` fails, so the dispatch falls back to
the two-byte `midi_event` stub and the body decode ends `Incomplete`. -/
theorem claim_c3 :
    meta_event [0xFF, 0x01, 0x03, 0x41, 0x42, 0x43]
        = .done [] { kind := 1, data := [0x41, 0x42, 0x43] }
    ∧ event [0x00, 0xFF, 0x01, 0x03, 0x41, 0x42, 0x43]
        = .done [0x03, 0x41, 0x42, 0x43] (.midi 0 ⟨⟩)
    ∧ track_events [0x00, 0xFF, 0x01, 0x03, 0x41, 0x42, 0x43] = .incomplete :=
  ⟨rfl, rfl, rfl⟩

/-- Claim C4 (truncated input): the spec requires `UnexpectedEof`
without a panic.  On a truncated buffer nom reports `Incomplete`, and
`parse_midi` matches `Incomplete` to `unreachable!()`, i.e. it panics:
here on a header followed by an `MTrk` chunk whose declared length 5
exceeds its 2 remaining bytes, and on an unterminated VLQ. -/
theorem claim_c4 :
    parse_midi ([0x4D, 0x54, 0x68, 0x64, 0, 0, 0, 6, 0, 1, 0, 2, 0, 0x60]
        ++ [0x4D, 0x54, 0x72, 0x6B, 0, 0, 0, 5, 0xAB, 0xCD]) = .panicked
    ∧ var_length [0x80] = .incomplete
    ∧ parse_midi [0x4D, 0x54, 0x68, 0x64] = .panicked :=
  ⟨rfl, rfl, rfl⟩

/-- Claim C5 (sysex end flag): the spec requires an empty payload to
decode with `end = false`.  The code computes
`data[data.len()-1] == 0xF7`, which panics on an empty payload; on
non-empty payloads the flag does match "last byte is 0xF7". -/
theorem claim_c5 :
    sysex_event [0xF0, 0x00] = .panicked
    ∧ sysex_event [0xF0, 0x02, 0x41, 0xF7]
        = .done [] { start := true, endFlag := true, data := [0x41, 0xF7] }
    ∧ sysex_event [0xF0, 0x02, 0x41, 0x42]
        = .done [] { start := true, endFlag := false, data := [0x41, 0x42] } :=
  ⟨rfl, rfl, rfl⟩

/-- Claim C9 (missing header): the spec requires `MissingHeader` on any
buffer whose first chunk is not `MThd`, including an empty buffer.  For
a buffer of at least 4 bytes the code does fail with the tag-mismatch
error (its rendering of `MissingHeader`), but on the empty buffer
`tag!(b"MThd")` reports `Incomplete` and `parse_midi`'s `unreachable!()`
panics instead of returning an error. -/
theorem claim_c9 :
    parse_midi [] = .panicked
    ∧ parse_midi [0x4D, 0x54, 0x72, 0x6B, 0x00, 0x00, 0x00, 0x00] = .err .tag
    ∧ parse_midi [0x58, 0x54, 0x52, 0x41, 0x00, 0x00, 0x00, 0x00] = .err .tag :=
  ⟨rfl, rfl, rfl⟩
